import Mathlib

/-!
Shallow embedding of the contracts-fixtures build pipeline
(`substrate/frame/contracts/fixtures/build.rs`) and proofs about it.

Paths are modeled as lists of components (root-first; the filesystem root
is `[]`).  Bytes are `Nat`s below 256.  Rust functions that can panic are
modeled with an `Outcome` type distinguishing a recoverable error value
from a process abort.
-/

set_option maxRecDepth 2048

namespace ContractsBuild

/-- Paths as component lists, root-first; the filesystem root is `[]`. -/
abbrev FsPath := List String

/-- Error taxonomy of the pipeline. -/
inductive BuildErr
  | ioError (msg : String)
  | configError (msg : String)
  | envError (name : String)
  | fmtError
  | buildError
  | postProcessError
deriving DecidableEq

/-- Result of running a pipeline step: a value, a recoverable error
returned to the caller, or a process abort with a message. -/
inductive Outcome (α : Type)
  | ok (a : α)
  | err (e : BuildErr)
  | panicked (msg : String)
deriving DecidableEq

/-- True exactly when the outcome is a recoverable error value. -/
def Outcome.isErr {α : Type} : Outcome α → Bool
  | .err _ => true
  | _ => false

/-- True exactly when the outcome is a process abort. -/
def Outcome.isPanic {α : Type} : Outcome α → Bool
  | .panicked _ => true
  | _ => false

/-- Filesystem state.  `files` maps a path to `some bytes` (exists,
readable) or `none` (exists, unreadable); an absent path does not exist.
`dirs` gives directory listings (immediate-child file names).  Writes to
a path listed in `writeFail` fail.  `canon` is the kernel's path
canonicalization.  `buildRs` holds the bytes of the pipeline's own source
file (the salt folded into every fingerprint).  `log` records the paths
of successful writes in chronological order. -/
structure St where
  files : List (FsPath × Option (List Nat))
  dirs : List (FsPath × List String)
  writeFail : List FsPath
  canon : FsPath → Option FsPath
  buildRs : List Nat
  log : List FsPath

/-- Read a file's bytes (`fs::read` / `fs::read_to_string`). -/
def fsRead (st : St) (p : FsPath) : Option (List Nat) :=
  match st.files.lookup p with
  | some (some d) => some d
  | _ => none

/-- Whether a path exists (`Path::exists`). -/
def fsExists (st : St) (p : FsPath) : Bool :=
  (st.files.lookup p).isSome

/-- List the immediate children of a directory (`fs::read_dir`). -/
def fsReadDir (st : St) (p : FsPath) : Option (List String) :=
  st.dirs.lookup p

/-- Write a file (`fs::write`): returns the updated state and whether
the write succeeded. -/
def fsWrite (st : St) (p : FsPath) (d : List Nat) : St × Bool :=
  if st.writeFail.contains p then (st, false)
  else ({ st with files := (p, some d) :: st.files, log := st.log ++ [p] }, true)

/-! ## XXH32 (the `twox_hash::XxHash32` hasher used by `file_hash`) -/

def P1 : Nat := 2654435761
def P2 : Nat := 2246822519
def P3 : Nat := 3266489917
def P4 : Nat := 668265263
def P5 : Nat := 374761393

/-- 2 to the 32nd power: the u32 modulus. -/
def M32 : Nat := 4294967296

/-- Rotate a 32-bit value left by `r` bits. -/
def rotl32 (r x : Nat) : Nat :=
  ((x <<< r) % M32) ||| ((x % M32) >>> (32 - r))

/-- Little-endian 32-bit word from four bytes. -/
def word32 (b0 b1 b2 b3 : Nat) : Nat :=
  b0 + 256 * (b1 + 256 * (b2 + 256 * b3))

/-- One XXH32 accumulator round. -/
def round32 (acc lane : Nat) : Nat :=
  (rotl32 13 ((acc + lane * P2) % M32) * P1) % M32

/-- Process 16-byte stripes while at least 16 bytes remain; returns the
four accumulators and the unconsumed remainder. -/
def stripes : List Nat → Nat → Nat → Nat → Nat → Nat × Nat × Nat × Nat × List Nat
  | b0 :: b1 :: b2 :: b3 :: b4 :: b5 :: b6 :: b7 ::
    b8 :: b9 :: b10 :: b11 :: b12 :: b13 :: b14 :: b15 :: rest, a1, a2, a3, a4 =>
      stripes rest (round32 a1 (word32 b0 b1 b2 b3)) (round32 a2 (word32 b4 b5 b6 b7))
        (round32 a3 (word32 b8 b9 b10 b11)) (round32 a4 (word32 b12 b13 b14 b15))
  | l, a1, a2, a3, a4 => (a1, a2, a3, a4, l)

/-- Fold the trailing bytes (first 4-byte words, then single bytes). -/
def finishTail : Nat → List Nat → Nat
  | h, b0 :: b1 :: b2 :: b3 :: rest =>
      finishTail ((rotl32 17 ((h + word32 b0 b1 b2 b3 * P3) % M32) * P4) % M32) rest
  | h, b :: rest =>
      finishTail ((rotl32 11 ((h + b * P5) % M32) * P1) % M32) rest
  | h, [] => h

/-- Final avalanche mixing. -/
def avalanche32 (h0 : Nat) : Nat :=
  let h1 := h0 ^^^ (h0 >>> 15)
  let h2 := (h1 * P2) % M32
  let h3 := h2 ^^^ (h2 >>> 13)
  let h4 := (h3 * P3) % M32
  h4 ^^^ (h4 >>> 16)

/-- The XXH32 hash of a byte sequence. -/
def xxh32 (seed : Nat) (data : List Nat) : Nat :=
  let pre :=
    if 16 ≤ data.length then
      let s := stripes data ((seed + P1 + P2) % M32) ((seed + P2) % M32)
        (seed % M32) ((seed + (M32 - P1 % M32)) % M32)
      ((rotl32 1 s.1 + rotl32 7 s.2.1 + rotl32 12 s.2.2.1 + rotl32 18 s.2.2.2.1) % M32,
        s.2.2.2.2)
    else ((seed + P5) % M32, data)
  avalanche32 (finishTail ((pre.1 + data.length) % M32) pre.2)

/-! ## Lowercase hex formatting (Rust `format!` with the `x` specifier) -/

/-- Lowercase hex digit for a value below 16. -/
def hexDigit (n : Nat) : Char :=
  if n < 10 then Char.ofNat (48 + n) else Char.ofNat (87 + n)

/-- Accumulate the hex digits of `n` (most significant first); `fuel`
bounds the number of digits, 16 suffices for any u64. -/
def hexAuxF : Nat → Nat → List Char → List Char
  | 0, _, acc => acc
  | _ + 1, 0, acc => acc
  | fuel + 1, n + 1, acc =>
      hexAuxF fuel ((n + 1) / 16) (hexDigit ((n + 1) % 16) :: acc)

/-- Unpadded lowercase hex rendering of a value below 2 to the 64th,
as Rust's `x` format specifier prints it. -/
def toHex (n : Nat) : String :=
  if n = 0 then "0" else String.mk (hexAuxF 16 n [])

/-! ## file_hash -/

/-- Model of `file_hash`: read the file, hash its bytes followed by the
pipeline's own source bytes, render as unpadded lowercase hex.  The Rust
code unwraps the read with `expect`, so an unreadable file aborts the
process instead of returning an error value. -/
def fileHashRun (st : St) (p : FsPath) : Outcome String :=
  match fsRead st p with
  | none => .panicked "file exists; qed"
  | some data => .ok (toHex (xxh32 0 (data ++ st.buildRs)))

/-! ## File-name helpers (Rust `Path::extension` / `Path::file_stem`) -/

/-- Suffix after the last dot of a character list, if any. -/
def afterLastDot : List Char → Option (List Char)
  | [] => none
  | c :: t =>
      match afterLastDot t with
      | some e => some e
      | none => if c = '.' then some t else none

/-- Prefix before the last dot of a character list, if any. -/
def beforeLastDot : List Char → Option (List Char)
  | [] => none
  | c :: t =>
      match beforeLastDot t with
      | some p => some (c :: p)
      | none => if c = '.' then some [] else none

/-- Model of `Path::extension` on a file name: the part after the last
dot, none when there is no dot or the only dot starts the name. -/
def extension (name : String) : Option String :=
  match name.data with
  | [] => none
  | _ :: t =>
      match afterLastDot t with
      | some e => some (String.mk e)
      | none => none

/-- Model of `Path::file_stem` on a file name: the part before the last
dot, or the whole name when `extension` is none. -/
def fileStem (name : String) : String :=
  match name.data with
  | [] => ""
  | c :: t =>
      match beforeLastDot t with
      | some p => String.mk (c :: p)
      | none => name

/-! ## Entry -/

/-- A contract entry: the path to the source file and the hex hash of
its content. -/
structure Entry where
  path : FsPath
  hash : String
deriving DecidableEq

/-- Last component of a path ("file name"). -/
def lastComponent (p : FsPath) : String := p.getLastD ""

/-- Model of `Entry::name`: the file stem of the source path. -/
def Entry.name (e : Entry) : String := fileStem (lastComponent e.path)

/-- Model of `Entry::out_wasm_filename`. -/
def Entry.outWasmFilename (e : Entry) : String := e.name ++ ".wasm"

/-! ## collect_entries -/

/-- Processing of one directory child in `collect_entries`: children
whose extension is not `rs` are skipped; otherwise the entry is built
(hashing the file, which aborts on an unreadable file) and kept exactly
when no marker file named by the hash exists in the output directory. -/
def entryStep (st : St) (cd od : FsPath) (name : String) : Outcome (Option Entry) :=
  if extension name = some "rs" then
    match fileHashRun st (cd ++ [name]) with
    | .panicked m => .panicked m
    | .err e => .err e
    | .ok h =>
        if fsExists st (od ++ [h]) then .ok none
        else .ok (some ⟨cd ++ [name], h⟩)
  else .ok none

/-- Fold `entryStep` over the directory listing (the `filter_map`). -/
def collectList (st : St) (cd od : FsPath) : List String → Outcome (List Entry)
  | [] => .ok []
  | n :: rest =>
      match entryStep st cd od n with
      | .panicked m => .panicked m
      | .err e => .err e
      | .ok oe =>
          match collectList st cd od rest with
          | .panicked m => .panicked m
          | .err e => .err e
          | .ok es => .ok (oe.toList ++ es)

/-- Model of `collect_entries`: list the source directory (aborting when
it cannot be read, as the Rust `expect` does) and keep the surviving
entries. -/
def collectEntries (st : St) (cd od : FsPath) : Outcome (List Entry) :=
  match fsReadDir st cd with
  | none => .panicked "src dir exists; qed"
  | some files => collectList st cd od files

/-! ## create_cargo_toml -/

/-- Bytes of a string (UTF-32 code points; content is irrelevant to the
claims, only which writes happen). -/
def strBytes (s : String) : List Nat := s.data.map Char.toNat

/-- Render a path the way `Entry::path` prints it. -/
def pathToString (p : FsPath) : String := String.intercalate "/" p

/-- Render one binary-target stanza of the synthesized manifest. -/
def renderBin (e : Entry) : String :=
  "[[bin]]\nname = '" ++ e.name ++ "'\npath = '" ++ pathToString e.path ++ "'\n"

/-- Render the synthesized manifest.  The static template always parses,
and `toml` serialization of a value always succeeds, so rendering is
total; no property of the entry names is checked anywhere. -/
def renderCargoToml (uapiPath commonPath : FsPath) (entries : List Entry) : String :=
  "[package]\nname = 'contracts'\nversion = '0.1.0'\nedition = '2021'\n" ++
  "[dependencies]\nuapi = '" ++ pathToString uapiPath ++ "'\n" ++
  "common = '" ++ pathToString commonPath ++ "'\n" ++
  "[profile.release]\nopt-level = 3\nlto = true\ncodegen-units = 1\n" ++
  String.join (entries.map renderBin)

/-- Model of `create_cargo_toml`: canonicalize the two fixed dependency
paths (failing with a configuration error when that is impossible),
render the manifest with one binary target per entry, and write it into
the scratch directory. -/
def createCargoToml (st : St) (fixturesDir : FsPath) (entries : List Entry)
    (outputDir : FsPath) : St × Outcome Unit :=
  match st.canon (fixturesDir ++ ["..", "uapi"]) with
  | none => (st, .err (.configError "canonicalize uapi"))
  | some uapiPath =>
      match st.canon (fixturesDir ++ ["contracts", "common"]) with
      | none => (st, .err (.configError "canonicalize common"))
      | some commonPath =>
          match fsWrite st (outputDir ++ ["Cargo.toml"])
              (strBytes (renderCargoToml uapiPath commonPath entries)) with
          | (st', true) => (st', .ok ())
          | (st', false) => (st', .err (.ioError "write Cargo.toml"))

/-! ## Wasm module model and post_process_wasm -/

/-- The `Internal` enumeration of a wasm export entry. -/
inductive Internal
  | function (idx : Nat)
  | table (idx : Nat)
  | memory (idx : Nat)
  | global (idx : Nat)
deriving DecidableEq

/-- One entry of a wasm export section. -/
structure ExportEntry where
  field : String
  internal : Internal
deriving DecidableEq

/-- A wasm section: the export section is kept structured, every other
section is an opaque identifier plus payload bytes. -/
inductive WasmSection
  | exportSec (entries : List ExportEntry)
  | other (id : Nat) (payload : List Nat)
deriving DecidableEq

/-- A parsed wasm module: its ordered list of sections. -/
structure WasmModule where
  sections : List WasmSection
deriving DecidableEq

/-- The retain predicate of `post_process_wasm`: keep an export exactly
when it is a function export named `call` or `deploy`. -/
def exportFilter (e : ExportEntry) : Bool :=
  (match e.internal with
   | .function _ => true
   | _ => false) &&
  (e.field == "call" || e.field == "deploy")

/-- Rewrite the section list: filter the entries of the first export
section (the one `export_section_mut` returns), leave everything else
alone. -/
def processSections : List WasmSection → List WasmSection
  | [] => []
  | .exportSec es :: rest => .exportSec (es.filter exportFilter) :: rest
  | s :: rest => s :: processSections rest

/-- Model of the module rewrite performed by `post_process_wasm`. -/
def postProcessModule (m : WasmModule) : WasmModule :=
  ⟨processSections m.sections⟩

/-- First export section of a section list (`export_section`). -/
def exportSectionOf : List WasmSection → Option (List ExportEntry)
  | [] => none
  | .exportSec es :: _ => some es
  | _ :: rest => exportSectionOf rest

/-- External-toolchain environment: the wasm codec (the `parity_wasm`
library), the exit status of the formatter and compiler invocations
(`none` models a spawn failure, which the Rust code unwraps), the
`CARGO` variable, the build-script input variables, and the scratch
directory the OS hands out. -/
structure Env where
  parse : List Nat → Option WasmModule
  serialize : WasmModule → List Nat
  fmtRes : Option Bool
  buildRes : Option Bool
  cargoVar : Option String
  manifestDir : Option FsPath
  outDirVar : Option FsPath
  tmpOk : Bool
  tmpDirPath : FsPath

/-- Model of `post_process_wasm`: read and parse the compiled module
(failing when it cannot be read or parsed), rewrite its export section,
serialize the result to the output path. -/
def postProcessWasmRun (env : Env) (st : St) (inPath outPath : FsPath) :
    St × Outcome Unit :=
  match fsRead st inPath with
  | none => (st, .err (.ioError "read wasm"))
  | some bytes =>
      match env.parse bytes with
      | none => (st, .err .postProcessError)
      | some m =>
          match fsWrite st outPath (env.serialize (postProcessModule m)) with
          | (st', true) => (st', .ok ())
          | (st', false) => (st', .err (.ioError "write wasm"))

/-! ## write_output -/

/-- Output-directory path of an entry's committed binary. -/
def binPath (od : FsPath) (e : Entry) : FsPath := od ++ [e.outWasmFilename]

/-- Output-directory path of an entry's zero-byte cache marker. -/
def markerPath (od : FsPath) (e : Entry) : FsPath := od ++ [e.hash]

/-- The two write targets of one committed entry, in commit order. -/
def pairPaths (od : FsPath) (e : Entry) : List FsPath :=
  [binPath od e, markerPath od e]

/-- Compiler-output path of an entry inside the scratch build dir. -/
def targetPath (bd : FsPath) (e : Entry) : FsPath :=
  bd ++ ["target", "wasm32-unknown-unknown", "release", e.outWasmFilename]

/-- Model of `write_output`: for each entry in order, post-process the
compiled binary into the output directory, then write the zero-byte
marker named by the entry's hash; stop at the first failure. -/
def writeOutput (env : Env) (st : St) (bd od : FsPath) :
    List Entry → St × Outcome Unit
  | [] => (st, .ok ())
  | e :: rest =>
      match postProcessWasmRun env st (targetPath bd e) (binPath od e) with
      | (st', .ok _) =>
          match fsWrite st' (markerPath od e) [] with
          | (st'', true) => writeOutput env st'' bd od rest
          | (st'', false) => (st'', .err (.ioError "write marker"))
      | (st', .err er) => (st', .err er)
      | (st', .panicked m) => (st', .panicked m)

/-! ## find_workspace_root -/

/-- Byte needle the workspace walk looks for in a `Cargo.toml`. -/
def wsNeedle : List Nat := strBytes "[workspace]"

/-- Whether the first list starts the second. -/
def leadsWith : List Nat → List Nat → Bool
  | [], _ => true
  | _ :: _, [] => false
  | a :: t, b :: u => a == b && leadsWith t u

/-- Whether `needle` occurs contiguously inside the second list
(Rust `str::contains`). -/
def containsSeq (needle : List Nat) : List Nat → Bool
  | [] => needle.isEmpty
  | a :: t => leadsWith needle (a :: t) || containsSeq needle t

/-- Workspace walk on the reversed component list (deepest component
first), so each step to the parent is structural.  A directory is
examined only while it still has a parent; an existing but unreadable
`Cargo.toml` ends the walk with `none` at once. -/
def findWSAux (st : St) : List String → Option FsPath
  | [] => none
  | c :: rest =>
      let dir := (c :: rest).reverse
      if fsExists st (dir ++ ["Cargo.toml"]) then
        match fsRead st (dir ++ ["Cargo.toml"]) with
        | none => none
        | some s => if containsSeq wsNeedle s then some dir else findWSAux st rest
      else findWSAux st rest

/-- Model of `find_workspace_root`. -/
def findWorkspaceRoot (st : St) (p : FsPath) : Option FsPath :=
  findWSAux st p.reverse

/-! ## main -/

/-- Observable orchestrator actions besides filesystem writes. -/
inductive Action
  | mkTempDir
  | runFmt
  | runBuild
deriving DecidableEq

/-- Model of `main`: resolve the input variables and the workspace root,
collect the surviving entries, and stop successfully at once when there
are none; otherwise provision the scratch directory, copy the style
configuration, synthesize the manifest, check formatting, compile, and
commit the outputs.  The returned action list records, in order, the
scratch-directory provisioning and the two toolchain invocations. -/
def mainRun (env : Env) (st : St) : St × List Action × Outcome Unit :=
  match env.manifestDir with
  | none => (st, [], .err (.envError "CARGO_MANIFEST_DIR"))
  | some fixturesDir =>
      match env.outDirVar with
      | none => (st, [], .err (.envError "OUT_DIR"))
      | some outDir =>
          match findWorkspaceRoot st fixturesDir with
          | none => (st, [], .panicked "workspace root exists; qed")
          | some workspaceRoot =>
              match collectEntries st (fixturesDir ++ ["contracts"]) outDir with
              | .panicked m => (st, [], .panicked m)
              | .err e => (st, [], .err e)
              | .ok entries =>
                  if entries.isEmpty then (st, [], .ok ())
                  else if env.tmpOk = false then (st, [], .err (.ioError "tempdir"))
                  else
                    match fsRead st (workspaceRoot ++ [".rustfmt.toml"]) with
                    | none => (st, [.mkTempDir], .err (.ioError "copy rustfmt"))
                    | some conf =>
                        match fsWrite st (env.tmpDirPath ++ [".rustfmt.toml"]) conf with
                        | (st1, false) => (st1, [.mkTempDir], .err (.ioError "copy rustfmt"))
                        | (st1, true) =>
                            match createCargoToml st1 fixturesDir entries env.tmpDirPath with
                            | (st2, .err e) => (st2, [.mkTempDir], .err e)
                            | (st2, .panicked m) => (st2, [.mkTempDir], .panicked m)
                            | (st2, .ok _) =>
                                match env.fmtRes with
                                | none => (st2, [.mkTempDir, .runFmt], .panicked "unwrap")
                                | some false => (st2, [.mkTempDir, .runFmt], .err .fmtError)
                                | some true =>
                                    match env.cargoVar with
                                    | none => (st2, [.mkTempDir, .runFmt], .err (.envError "CARGO"))
                                    | some _ =>
                                        match env.buildRes with
                                        | none => (st2, [.mkTempDir, .runFmt, .runBuild], .panicked "unwrap")
                                        | some false => (st2, [.mkTempDir, .runFmt, .runBuild], .err .buildError)
                                        | some true =>
                                            let r := writeOutput env st2 env.tmpDirPath outDir entries
                                            (r.1, [.mkTempDir, .runFmt, .runBuild], r.2)

/-- Validity of a unit name as a Rust identifier, following the spec's
words ("valid identifier"): a nonempty string of letters, digits and
underscores not starting with a digit.  Written from the spec, not from
the source: the source performs no such check (which is what claim C7 is
about). -/
def specValidIdentifier (s : String) : Bool :=
  match s.data with
  | [] => false
  | c :: t =>
      (c.isAlpha || c = '_') && t.all (fun d => d.isAlphanum || d = '_')

/-! ## Concrete instances used to exercise the theorems -/

/-- The fixtures directory of the sample runs. -/
def fixturesW : FsPath := ["repo", "substrate", "frame", "contracts", "fixtures"]

/-- The output directory of the sample runs. -/
def outW : FsPath := ["out"]

/-- A sample external environment: the codec parses every byte string to
the empty module, both toolchain invocations succeed. -/
def envW : Env where
  parse := fun _ => some ⟨[]⟩
  serialize := fun _ => []
  fmtRes := some true
  buildRes := some true
  cargoVar := some "cargo"
  manifestDir := some fixturesW
  outDirVar := some outW
  tmpOk := true
  tmpDirPath := ["tmp"]

/-- A state whose contracts directory is empty: the workspace root is at
`repo`, nothing needs rebuilding. -/
def stEmptyRun : St where
  files := [(["repo", "Cargo.toml"], some (strBytes "[workspace]"))]
  dirs := [(fixturesW ++ ["contracts"], [])]
  writeFail := []
  canon := fun p => some p
  buildRs := []
  log := []

/-- Contracts directory of the collection sample. -/
def cdC3 : FsPath := ["src", "contracts"]

/-- Output directory of the collection sample. -/
def odC3 : FsPath := ["outc"]

/-- A state with one `rs` source (content `a`) and one non-`rs` child. -/
def stC3 : St where
  files := [(cdC3 ++ ["a.rs"], some [97])]
  dirs := [(cdC3, ["a.rs", "x.txt"])]
  writeFail := []
  canon := fun p => some p
  buildRs := []
  log := []

/-- Scratch build directory of the commit sample. -/
def bdW4 : FsPath := ["tmp"]

/-- An entry to commit in the sample run. -/
def eW4 : Entry := ⟨["src", "contracts", "f.rs"], "dead"⟩

/-- A state holding the compiled binary for `eW4`. -/
def stC4 : St where
  files := [(targetPath bdW4 eW4, some [0, 97, 115, 109])]
  dirs := []
  writeFail := []
  canon := fun p => some p
  buildRs := []
  log := []

/-- A state whose only file exists but cannot be read. -/
def stC6 : St where
  files := [(["src", "contracts", "bad.rs"], none)]
  dirs := []
  writeFail := []
  canon := fun p => some p
  buildRs := []
  log := []

/-- The unreadable path of `stC6`. -/
def pC6 : FsPath := ["src", "contracts", "bad.rs"]

/-- A state where canonicalization and writes always succeed. -/
def stC7 : St where
  files := []
  dirs := []
  writeFail := []
  canon := fun p => some p
  buildRs := []
  log := []

/-- An entry whose unit name is not a valid identifier. -/
def badEntryC7 : Entry := ⟨["src", "contracts", "99 bad name!.rs"], "abc"⟩

/-- First machine of the determinism sample. -/
def stC8a : St where
  files := [(["m1", "f.rs"], some [1, 2, 3])]
  dirs := []
  writeFail := []
  canon := fun p => some p
  buildRs := [42]
  log := []

/-- Second machine of the determinism sample: a different path holds a
file with the same bytes, the pipeline source is the same. -/
def stC8b : St where
  files := [(["m2", "g.rs"], some [1, 2, 3])]
  dirs := []
  writeFail := []
  canon := fun p => some p
  buildRs := [42]
  log := []

/-- A state holding an empty source file and a one-byte source file. -/
def stC9 : St where
  files := [(["s", "empty.rs"], some []), (["s", "a.rs"], some [97])]
  dirs := []
  writeFail := []
  canon := fun p => some p
  buildRs := []
  log := []

/-- A state whose deepest ancestor holds an unreadable `Cargo.toml`,
while the filesystem root holds a workspace-declaring one. -/
def stC10 : St where
  files := [(["home", "work", "Cargo.toml"], none),
            (["Cargo.toml"], some (strBytes "[workspace]"))]
  dirs := []
  writeFail := []
  canon := fun p => some p
  buildRs := []
  log := []

/-- Start directory of the workspace-walk sample. -/
def pC10 : FsPath := ["home", "work"]

/-! # Theorems -/

/-! ## Export filtering (post_process_wasm) -/

theorem exportFilter_iff (e : ExportEntry) :
    exportFilter e = true ↔
      (∃ i, e.internal = .function i) ∧ (e.field = "call" ∨ e.field = "deploy") := by
  rcases e with ⟨f, i⟩
  cases i <;> simp [exportFilter]

theorem exportSectionOf_processSections (ss : List WasmSection) :
    exportSectionOf (processSections ss) =
      (exportSectionOf ss).map (fun es => es.filter exportFilter) := by
  induction ss with
  | nil => rfl
  | cons s rest ih =>
      cases s with
      | exportSec es => rfl
      | other id pl => simpa [processSections, exportSectionOf] using ih

/-- C1: in the post-processed module, the export section retains exactly
the function-type exports named `call` or `deploy`: every surviving
entry satisfies both conditions, and every original entry satisfying
both survives. -/
theorem export_section_allowlist (m : WasmModule) (es0 : List ExportEntry)
    (h : exportSectionOf m.sections = some es0) :
    exportSectionOf (postProcessModule m).sections = some (es0.filter exportFilter) ∧
    (∀ e ∈ es0.filter exportFilter,
        (∃ i, e.internal = .function i) ∧ (e.field = "call" ∨ e.field = "deploy")) ∧
    (∀ e ∈ es0,
        ((∃ i, e.internal = .function i) ∧ (e.field = "call" ∨ e.field = "deploy")) →
          e ∈ es0.filter exportFilter) := by
  refine ⟨?_, ?_, ?_⟩
  · show exportSectionOf (processSections m.sections) = _
    rw [exportSectionOf_processSections, h]
    rfl
  · intro e he
    rw [List.mem_filter] at he
    exact (exportFilter_iff e).1 he.2
  · intro e he hcond
    rw [List.mem_filter]
    exact ⟨he, (exportFilter_iff e).2 hcond⟩

/-- Sample module: one opaque section, an export section with a mix of
sanctioned and stray exports, another opaque section. -/
def mW1 : WasmModule :=
  ⟨[.other 1 [7, 7], .exportSec [⟨"call", .function 0⟩, ⟨"memory", .memory 0⟩,
      ⟨"deploy", .function 1⟩, ⟨"helper", .function 2⟩], .other 11 [3, 4]]⟩

theorem export_section_allowlist_instance :
    exportSectionOf mW1.sections =
      some [⟨"call", .function 0⟩, ⟨"memory", .memory 0⟩,
        ⟨"deploy", .function 1⟩, ⟨"helper", .function 2⟩] ∧
    exportSectionOf (postProcessModule mW1).sections =
      some [⟨"call", .function 0⟩, ⟨"deploy", .function 1⟩] :=
  ⟨rfl, (export_section_allowlist mW1 _ rfl).1⟩

/-! ## Other sections pass through unchanged -/

theorem processSections_length (ss : List WasmSection) :
    (processSections ss).length = ss.length := by
  induction ss with
  | nil => rfl
  | cons s rest ih =>
      cases s with
      | exportSec es => rfl
      | other id pl => simpa [processSections] using ih

theorem processSections_other (ss : List WasmSection) :
    ∀ (i id : Nat) (pl : List Nat), ss[i]? = some (.other id pl) →
      (processSections ss)[i]? = some (.other id pl) := by
  induction ss with
  | nil => intro i id pl h; simp at h
  | cons s rest ih =>
      intro i id pl h
      cases s with
      | exportSec es =>
          cases i with
          | zero => simp at h
          | succ j => simpa [processSections] using h
      | other id' pl' =>
          cases i with
          | zero => simpa [processSections] using h
          | succ j =>
              rw [show processSections (WasmSection.other id' pl' :: rest) =
                    .other id' pl' :: processSections rest from rfl]
              simp only [List.getElem?_cons_succ] at h ⊢
              exact ih j id pl h

/-- C2: post-processing preserves the number and positions of sections,
and every section other than the export section is carried over
byte-identically. -/
theorem post_process_preserves_other_sections (m : WasmModule) :
    (postProcessModule m).sections.length = m.sections.length ∧
    ∀ (i id : Nat) (pl : List Nat), m.sections[i]? = some (.other id pl) →
      (postProcessModule m).sections[i]? = some (.other id pl) := by
  exact ⟨processSections_length m.sections, processSections_other m.sections⟩

theorem post_process_preserves_other_sections_instance :
    mW1.sections[2]? = some (.other 11 [3, 4]) ∧
    (postProcessModule mW1).sections[2]? = some (.other 11 [3, 4]) :=
  ⟨rfl, (post_process_preserves_other_sections mW1).2 2 11 [3, 4] rfl⟩

/-! ## file_hash on unreadable files (claim C6) -/

/-- Counterexample to C6: on an existing but unreadable file, the
fingerprint computation does not return a recoverable error value; it
aborts the process. -/
theorem file_hash_io_error_counterexample :
    fsExists stC6 pC6 = true ∧
    (fileHashRun stC6 pC6).isErr = false ∧
    (fileHashRun stC6 pC6).isPanic = true :=
  ⟨rfl, rfl, rfl⟩

/-- C6 (amended): for every path whose file cannot be read, the
fingerprint computation aborts the process with the `expect` message
instead of returning an error value. -/
theorem file_hash_unreadable_aborts (st : St) (p : FsPath)
    (h : fsRead st p = none) :
    fileHashRun st p = .panicked "file exists; qed" := by
  unfold fileHashRun
  rw [h]

theorem file_hash_unreadable_aborts_instance :
    fsRead stC6 pC6 = none ∧
    fileHashRun stC6 pC6 = .panicked "file exists; qed" :=
  ⟨rfl, file_hash_unreadable_aborts stC6 pC6 rfl⟩

/-! ## Fingerprint determinism (claim C8) -/

/-- C8: two files with identical byte content, hashed under the same
pipeline-source bytes (even on different machines), receive byte-identical
fingerprint strings. -/
theorem file_hash_deterministic (st1 st2 : St) (p1 p2 : FsPath) (d : List Nat)
    (hsalt : st1.buildRs = st2.buildRs)
    (h1 : fsRead st1 p1 = some d) (h2 : fsRead st2 p2 = some d) :
    fileHashRun st1 p1 = fileHashRun st2 p2 := by
  unfold fileHashRun
  rw [h1, h2, hsalt]

theorem file_hash_deterministic_instance :
    fsRead stC8a ["m1", "f.rs"] = some [1, 2, 3] ∧
    fsRead stC8b ["m2", "g.rs"] = some [1, 2, 3] ∧
    fileHashRun stC8a ["m1", "f.rs"] = fileHashRun stC8b ["m2", "g.rs"] :=
  ⟨rfl, rfl, file_hash_deterministic stC8a stC8b ["m1", "f.rs"] ["m2", "g.rs"]
    [1, 2, 3] rfl rfl rfl⟩

/-! ## Workspace-root walk (claim C10) -/

theorem findWSAux_ne_nil (st : St) :
    ∀ (l : List String) (d : FsPath), findWSAux st l = some d → d ≠ [] := by
  intro l
  induction l with
  | nil => intro d h; simp [findWSAux] at h
  | cons c rest ih =>
      intro d h
      rw [findWSAux] at h
      split at h
      · split at h
        · exact absurd h (by simp)
        · split at h
          · injection h with h'
            subst h'
            simp
          · exact ih d h
      · exact ih d h

/-- C10: the walk never returns the filesystem root (every returned
directory has a parent), and an existing but unreadable `Cargo.toml` at
the current directory ends the whole walk with `none` at once. -/
theorem find_workspace_root_spec (st : St) (p : FsPath) :
    (∀ d, findWorkspaceRoot st p = some d → d ≠ []) ∧
    (p ≠ [] → fsExists st (p ++ ["Cargo.toml"]) = true →
      fsRead st (p ++ ["Cargo.toml"]) = none → findWorkspaceRoot st p = none) := by
  constructor
  · intro d h
    exact findWSAux_ne_nil st p.reverse d h
  · intro hne hex hread
    unfold findWorkspaceRoot
    obtain ⟨c, rest, hrev⟩ : ∃ c rest, p.reverse = c :: rest := by
      rcases hr : p.reverse with _ | ⟨c, rest⟩
      · exact absurd (by simpa using congrArg List.reverse hr) hne
      · exact ⟨c, rest, rfl⟩
    have hdir : (c :: rest).reverse = p := by
      rw [← hrev, List.reverse_reverse]
    rw [hrev, findWSAux, hdir]
    rw [if_pos hex, hread]

theorem find_workspace_root_spec_instance :
    pC10 ≠ [] ∧
    fsExists stC10 (pC10 ++ ["Cargo.toml"]) = true ∧
    fsRead stC10 (pC10 ++ ["Cargo.toml"]) = none ∧
    findWorkspaceRoot stC10 pC10 = none :=
  ⟨by decide, rfl, rfl,
    (find_workspace_root_spec stC10 pC10).2 (by decide) rfl rfl⟩

/-! ## No-op run when nothing survives the cache check (claim C5) -/

/-- C5: when the entry collector yields no surviving entries, the
orchestrator succeeds immediately: the state is untouched (no scratch
directory, no manifest, no writes) and no toolchain action is taken. -/
theorem main_noop_when_no_entries (env : Env) (st : St) (fd od wr : FsPath)
    (hfd : env.manifestDir = some fd) (hod : env.outDirVar = some od)
    (hwr : findWorkspaceRoot st fd = some wr)
    (hcol : collectEntries st (fd ++ ["contracts"]) od = .ok []) :
    mainRun env st = (st, [], .ok ()) := by
  simp only [mainRun, hfd, hod, hwr, hcol, List.isEmpty_nil, if_true]

theorem main_noop_when_no_entries_instance :
    collectEntries stEmptyRun (fixturesW ++ ["contracts"]) outW = .ok [] ∧
    mainRun envW stEmptyRun = (stEmptyRun, [], .ok ()) :=
  ⟨rfl, main_noop_when_no_entries envW stEmptyRun fixturesW outW ["repo"]
    rfl rfl rfl rfl⟩

/-! ## Manifest synthesis and unit names (claim C7) -/

/-- Counterexample to C7: an entry whose unit name is not a valid
identifier is accepted: manifest synthesis succeeds, no configuration
error is raised. -/
theorem cargo_toml_invalid_name_counterexample :
    specValidIdentifier badEntryC7.name = false ∧
    (createCargoToml stC7 fixturesW [badEntryC7] outW).2 = .ok () := by
  constructor
  · decide
  · rfl

/-- C7 (amended): manifest synthesis performs no unit-name validation;
whenever the two dependency paths canonicalize and the manifest write
succeeds, it returns success for every entry list, whatever the unit
names are. -/
theorem create_cargo_toml_no_name_check (st : St) (fd : FsPath)
    (entries : List Entry) (od : FsPath) (cu cc : FsPath)
    (hu : st.canon (fd ++ ["..", "uapi"]) = some cu)
    (hc : st.canon (fd ++ ["contracts", "common"]) = some cc)
    (hw : st.writeFail.contains (od ++ ["Cargo.toml"]) = false) :
    (createCargoToml st fd entries od).2 = .ok () := by
  unfold createCargoToml
  rw [hu, hc]
  unfold fsWrite
  rw [hw]
  simp

theorem create_cargo_toml_no_name_check_instance :
    stC7.canon (fixturesW ++ ["..", "uapi"]) = some (fixturesW ++ ["..", "uapi"]) ∧
    specValidIdentifier badEntryC7.name = false ∧
    (createCargoToml stC7 fixturesW [badEntryC7] outW).2 = .ok () :=
  ⟨rfl, by decide,
    create_cargo_toml_no_name_check stC7 fixturesW [badEntryC7] outW
      (fixturesW ++ ["..", "uapi"]) (fixturesW ++ ["contracts", "common"])
      rfl rfl rfl⟩

/-! ## Fingerprint width (claim C9) -/

theorem hexAuxF_length_ge :
    ∀ (fuel n : Nat) (acc : List Char), acc.length ≤ (hexAuxF fuel n acc).length := by
  intro fuel
  induction fuel with
  | zero => intro n acc; simp [hexAuxF]
  | succ f ih =>
      intro n acc
      cases n with
      | zero => simp [hexAuxF]
      | succ m =>
          rw [hexAuxF]
          calc acc.length ≤ (hexDigit ((m + 1) % 16) :: acc).length := by simp
            _ ≤ _ := ih ((m + 1) / 16) _

theorem hexAuxF_length_le :
    ∀ (fuel k n : Nat) (acc : List Char), n < 16 ^ k → k ≤ fuel →
      (hexAuxF fuel n acc).length ≤ k + acc.length := by
  intro fuel
  induction fuel with
  | zero =>
      intro k n acc hn hk
      simp [hexAuxF]
  | succ f ih =>
      intro k n acc hn hk
      cases n with
      | zero =>
          simp [hexAuxF]
      | succ m =>
          cases k with
          | zero => simp at hn
          | succ k' =>
              rw [hexAuxF]
              have hdiv : (m + 1) / 16 < 16 ^ k' := by
                apply Nat.div_lt_of_lt_mul
                calc m + 1 < 16 ^ (k' + 1) := hn
                  _ = 16 * 16 ^ k' := by ring
              have := ih k' ((m + 1) / 16) (hexDigit ((m + 1) % 16) :: acc) hdiv
                (Nat.succ_le_succ_iff.mp hk)
              simp only [List.length_cons] at this
              omega

theorem xorshift_lt (x k : Nat) (h : x < M32) : x ^^^ (x >>> k) < M32 := by
  have h2 : M32 = 2 ^ 32 := by norm_num [M32]
  rw [h2] at h ⊢
  refine Nat.xor_lt_two_pow h (Nat.lt_of_le_of_lt ?_ h)
  rw [Nat.shiftRight_eq_div_pow]
  exact Nat.div_le_self _ _

theorem avalanche32_lt (h0 : Nat) : avalanche32 h0 < M32 := by
  simp only [avalanche32]
  exact xorshift_lt _ 16 (Nat.mod_lt _ (by norm_num [M32]))

theorem xxh32_lt (seed : Nat) (data : List Nat) : xxh32 seed data < M32 := by
  unfold xxh32
  exact avalanche32_lt _

theorem toHex_length_bounds (n : Nat) (h : n < M32) :
    1 ≤ (toHex n).length ∧ (toHex n).length ≤ 8 := by
  unfold toHex
  split
  · exact ⟨by decide, by decide⟩
  · rename_i hne
    have hlen : (String.mk (hexAuxF 16 n [])).length = (hexAuxF 16 n []).length := rfl
    rw [hlen]
    constructor
    · cases n with
      | zero => exact absurd rfl hne
      | succ m =>
          rw [hexAuxF]
          have := hexAuxF_length_ge 15 ((m + 1) / 16) [hexDigit ((m + 1) % 16)]
          simpa using this
    · have h16 : n < 16 ^ 8 := by
        calc n < M32 := h
          _ = 16 ^ 8 := by norm_num [M32]
      simpa using hexAuxF_length_le 16 8 n [] h16 (by norm_num)

/-- Counterexample to C9: the fingerprint is rendered with the unpadded
hex format specifier, so two source files yield fingerprints of
different lengths: the empty file hashes to a seven-character string and
the one-byte file `a` to an eight-character one. -/
theorem fingerprint_width_counterexample :
    fileHashRun stC9 ["s", "empty.rs"] = .ok "2cc5d05" ∧
    fileHashRun stC9 ["s", "a.rs"] = .ok "550d7456" ∧
    "2cc5d05".length = 7 ∧ "550d7456".length = 8 :=
  ⟨rfl, rfl, rfl, rfl⟩

/-- C9 (amended): the fingerprint of a readable file is the unpadded
lowercase hex rendering of a 32-bit hash: between one and eight
characters, the exact length depending on the hash value rather than
being fixed. -/
theorem fingerprint_hex_bounds (st : St) (p : FsPath) (d : List Nat)
    (h : fsRead st p = some d) :
    fileHashRun st p = .ok (toHex (xxh32 0 (d ++ st.buildRs))) ∧
    1 ≤ (toHex (xxh32 0 (d ++ st.buildRs))).length ∧
    (toHex (xxh32 0 (d ++ st.buildRs))).length ≤ 8 := by
  refine ⟨?_, toHex_length_bounds _ (xxh32_lt 0 _)⟩
  unfold fileHashRun
  rw [h]

theorem fingerprint_hex_bounds_instance :
    fsRead stC9 ["s", "empty.rs"] = some [] ∧
    fileHashRun stC9 ["s", "empty.rs"] =
      .ok (toHex (xxh32 0 ([] ++ stC9.buildRs))) ∧
    1 ≤ (toHex (xxh32 0 ([] ++ stC9.buildRs))).length ∧
    (toHex (xxh32 0 ([] ++ stC9.buildRs))).length ≤ 8 := by
  have h := fingerprint_hex_bounds stC9 ["s", "empty.rs"] [] rfl
  exact ⟨rfl, h.1, h.2.1, h.2.2⟩

/-! ## Entry collection (claim C3) -/

theorem entryStep_ok_some {st : St} {cd od : FsPath} {n : String} {e : Entry}
    (h : entryStep st cd od n = .ok (some e)) :
    extension n = some "rs" ∧ fileHashRun st (cd ++ [n]) = .ok e.hash ∧
    fsExists st (od ++ [e.hash]) = false ∧ e.path = cd ++ [n] := by
  unfold entryStep at h
  split at h
  · rename_i hext
    split at h
    · cases h
    · cases h
    · rename_i hsh hh
      split at h
      · cases h
      · rename_i hmarker
        injection h with h'
        injection h' with h''
        subst h''
        exact ⟨hext, hh, by simpa using hmarker, rfl⟩
  · cases h

theorem collectList_ok_mem {st : St} {cd od : FsPath} :
    ∀ {ns : List String} {es : List Entry}, collectList st cd od ns = .ok es →
      ∀ e ∈ es, ∃ n ∈ ns, entryStep st cd od n = .ok (some e) := by
  intro ns
  induction ns with
  | nil =>
      intro es h e he
      unfold collectList at h
      injection h with h'
      subst h'
      simp at he
  | cons n rest ih =>
      intro es h e he
      unfold collectList at h
      cases h1 : entryStep st cd od n with
      | panicked m => rw [h1] at h; cases h
      | err er => rw [h1] at h; cases h
      | ok oe =>
          rw [h1] at h
          cases h2 : collectList st cd od rest with
          | panicked m => rw [h2] at h; cases h
          | err er => rw [h2] at h; cases h
          | ok es' =>
              rw [h2] at h
              injection h with h'
              subst h'
              rcases List.mem_append.1 he with hL | hR
              · cases oe with
                | none => simp at hL
                | some x =>
                    simp at hL
                    subst hL
                    exact ⟨n, by simp, h1⟩
              · obtain ⟨n', hn', hstep⟩ := ih h2 e hR
                exact ⟨n', by simp [hn'], hstep⟩

theorem collectList_complete {st : St} {cd od : FsPath} :
    ∀ {ns : List String} {es : List Entry} {n : String} {hsh : String},
      collectList st cd od ns = .ok es → n ∈ ns →
      extension n = some "rs" → fileHashRun st (cd ++ [n]) = .ok hsh →
      fsExists st (od ++ [hsh]) = false → Entry.mk (cd ++ [n]) hsh ∈ es := by
  intro ns
  induction ns with
  | nil => intro es n hsh _ hmem; simp at hmem
  | cons m rest ih =>
      intro es n hsh h hmem hext hhash hmk
      unfold collectList at h
      cases h1 : entryStep st cd od m with
      | panicked msg => rw [h1] at h; cases h
      | err er => rw [h1] at h; cases h
      | ok oe =>
          rw [h1] at h
          cases h2 : collectList st cd od rest with
          | panicked msg => rw [h2] at h; cases h
          | err er => rw [h2] at h; cases h
          | ok es' =>
              rw [h2] at h
              injection h with h'
              subst h'
              rcases List.mem_cons.1 hmem with heq | hrest
              · subst heq
                have hstep : entryStep st cd od n = .ok (some ⟨cd ++ [n], hsh⟩) := by
                  unfold entryStep
                  rw [if_pos hext, hhash]
                  simp [hmk]
                rw [h1] at hstep
                injection hstep with h''
                subst h''
                simp
              · exact List.mem_append.2 (.inr (ih h2 hrest hext hhash hmk))

/-- C3: for every immediate child of the source directory, a child
whose extension is not `rs` contributes no entry and no error; a child
with extension `rs` has an entry with its fingerprint built, and that
entry is in the result exactly when no file named by the fingerprint
exists in the output directory. -/
theorem collect_entries_filter_spec (st : St) (cd od : FsPath)
    (files : List String) (es : List Entry) (name : String)
    (hdir : fsReadDir st cd = some files)
    (hok : collectEntries st cd od = .ok es)
    (hmem : name ∈ files) :
    (extension name ≠ some "rs" →
        entryStep st cd od name = .ok none ∧ ∀ e ∈ es, e.path ≠ cd ++ [name]) ∧
    (∀ hsh, extension name = some "rs" → fileHashRun st (cd ++ [name]) = .ok hsh →
        (Entry.mk (cd ++ [name]) hsh ∈ es ↔ fsExists st (od ++ [hsh]) = false)) := by
  have hlist : collectList st cd od files = .ok es := by
    unfold collectEntries at hok
    rw [hdir] at hok
    exact hok
  constructor
  · intro hne
    constructor
    · unfold entryStep
      rw [if_neg hne]
    · intro e he heq
      obtain ⟨n, hn, hstep⟩ := collectList_ok_mem hlist e he
      obtain ⟨hext, -, -, hpath⟩ := entryStep_ok_some hstep
      rw [heq] at hpath
      have : n = name := by
        have h1 : [n] = [name] := List.append_cancel_left hpath.symm
        injection h1
      rw [this] at hext
      exact hne hext
  · intro hsh hext hhash
    constructor
    · intro hin
      obtain ⟨n, hn, hstep⟩ := collectList_ok_mem hlist _ hin
      obtain ⟨-, -, hmarker, -⟩ := entryStep_ok_some hstep
      exact hmarker
    · intro hmarker
      exact collectList_complete hlist hmem hext hhash hmarker

theorem collect_entries_filter_spec_instance :
    fsReadDir stC3 cdC3 = some ["a.rs", "x.txt"] ∧
    collectEntries stC3 cdC3 odC3 = .ok [⟨cdC3 ++ ["a.rs"], "550d7456"⟩] ∧
    entryStep stC3 cdC3 odC3 "x.txt" = .ok none :=
  ⟨rfl, rfl,
    ((collect_entries_filter_spec stC3 cdC3 odC3 ["a.rs", "x.txt"]
        [⟨cdC3 ++ ["a.rs"], "550d7456"⟩] "x.txt" rfl rfl (by decide)).1
      (by decide)).1⟩

/-! ## Commit ordering and fail-fast (claim C4) -/

theorem fsWrite_true {st : St} {p : FsPath} {d : List Nat} {st' : St}
    (h : fsWrite st p d = (st', true)) : st'.log = st.log ++ [p] := by
  unfold fsWrite at h
  split at h
  · simp at h
  · injection h with h1 h2
    subst h1
    rfl

theorem fsWrite_false {st : St} {p : FsPath} {d : List Nat} {st' : St}
    (h : fsWrite st p d = (st', false)) : st' = st := by
  unfold fsWrite at h
  split at h
  · injection h with h1 h2
    exact h1.symm
  · simp at h

theorem postProcessWasmRun_ok {env : Env} {st : St} {i o : FsPath} {st' : St}
    (h : postProcessWasmRun env st i o = (st', .ok ())) :
    st'.log = st.log ++ [o] := by
  unfold postProcessWasmRun at h
  split at h
  · injection h with h1 h2; cases h2
  · split at h
    · injection h with h1 h2; cases h2
    · split at h
      · rename_i hw
        injection h with h1 h2
        rw [← h1]
        exact fsWrite_true hw
      · injection h with h1 h2; cases h2

theorem postProcessWasmRun_err {env : Env} {st : St} {i o : FsPath} {st' : St}
    {er : BuildErr} (h : postProcessWasmRun env st i o = (st', .err er)) :
    st' = st := by
  unfold postProcessWasmRun at h
  split at h
  · injection h with h1 h2; exact h1.symm
  · split at h
    · injection h with h1 h2; exact h1.symm
    · split at h
      · injection h with h1 h2; cases h2
      · rename_i hw
        injection h with h1 h2
        rw [← h1]
        exact fsWrite_false hw

theorem postProcessWasmRun_no_panic {env : Env} {st : St} {i o : FsPath} {st' : St}
    {m : String} (h : postProcessWasmRun env st i o = (st', .panicked m)) :
    False := by
  unfold postProcessWasmRun at h
  split at h
  · injection h with h1 h2; cases h2
  · split at h
    · injection h with h1 h2; cases h2
    · split at h
      · injection h with h1 h2; cases h2
      · injection h with h1 h2; cases h2

/-- C4: the writes performed by `write_output` are, in order, the
(binary, marker) pairs of a prefix of the entries: on success the whole
list, on failure a strict prefix optionally followed by the binary of
the failing entry alone — so a marker is written only after that entry's
binary write succeeded, a failing entry gets no marker, and no later
entry is committed. -/
theorem write_output_commit_order (env : Env) (bd od : FsPath) :
    ∀ (entries : List Entry) (st st' : St) (r : Outcome Unit),
      writeOutput env st bd od entries = (st', r) →
      ∃ k tail, k ≤ entries.length ∧
        st'.log = st.log ++ ((entries.take k).map (pairPaths od)).flatten ++ tail ∧
        ((r = .ok () ∧ k = entries.length ∧ tail = []) ∨
         (r ≠ .ok () ∧ k < entries.length ∧
           (tail = [] ∨ ∃ e, entries[k]? = some e ∧ tail = [binPath od e]))) := by
  intro entries
  induction entries with
  | nil =>
      intro st st' r h
      unfold writeOutput at h
      injection h with h1 h2
      subst h1
      refine ⟨0, [], by omega, by simp, .inl ⟨h2.symm, rfl, rfl⟩⟩
  | cons e rest ih =>
      intro st st' r h
      unfold writeOutput at h
      split at h
      · -- post-processing of `e` succeeded
        rename_i st1 u hpp
        cases u
        split at h
        · -- marker write succeeded: recurse
          rename_i st2 hw
          obtain ⟨k, tail, hk, hlog, hcase⟩ := ih st2 st' r h
          refine ⟨k + 1, tail, by simpa using Nat.succ_le_succ hk, ?_, ?_⟩
          · rw [hlog, fsWrite_true hw, postProcessWasmRun_ok hpp]
            simp [pairPaths, List.take_succ_cons]
          · rcases hcase with ⟨hr, hke, ht⟩ | ⟨hr, hke, ht⟩
            · exact .inl ⟨hr, by simp [hke], ht⟩
            · refine .inr ⟨hr, by simpa using Nat.succ_lt_succ hke, ?_⟩
              rcases ht with ht | ⟨e', he', ht⟩
              · exact .inl ht
              · exact .inr ⟨e', by simpa using he', ht⟩
        · -- marker write failed
          rename_i st2 hw
          injection h with h1 h2
          subst h1
          refine ⟨0, [binPath od e], by omega, ?_, ?_⟩
          · rw [fsWrite_false hw, postProcessWasmRun_ok hpp]
            simp
          · exact .inr ⟨(by rw [← h2]; intro hc; cases hc), by simp,
              .inr ⟨e, by simp, rfl⟩⟩
      · -- post-processing of `e` failed with an error
        rename_i st1 er hpp
        injection h with h1 h2
        subst h1
        refine ⟨0, [], by omega, ?_, ?_⟩
        · rw [postProcessWasmRun_err hpp]
          simp
        · exact .inr ⟨(by rw [← h2]; intro hc; cases hc), by simp, .inl rfl⟩
      · -- post-processing never aborts
        rename_i st1 m hpp
        exact absurd hpp postProcessWasmRun_no_panic

theorem write_output_commit_order_instance :
    ∃ k tail, k ≤ [eW4].length ∧
      (writeOutput envW stC4 bdW4 outW [eW4]).1.log =
        stC4.log ++ (([eW4].take k).map (pairPaths outW)).flatten ++ tail ∧
      (((writeOutput envW stC4 bdW4 outW [eW4]).2 = .ok () ∧
          k = [eW4].length ∧ tail = []) ∨
       ((writeOutput envW stC4 bdW4 outW [eW4]).2 ≠ .ok () ∧ k < [eW4].length ∧
         (tail = [] ∨ ∃ e, [eW4][k]? = some e ∧ tail = [binPath outW e]))) :=
  write_output_commit_order envW bdW4 outW [eW4] stC4
    (writeOutput envW stC4 bdW4 outW [eW4]).1
    (writeOutput envW stC4 bdW4 outW [eW4]).2 rfl

end ContractsBuild
